import Mathlib

/-!
Verification of the termsheet generators (src/TS_GFA.py and src/main.py):
a shallow embedding of the number-to-French-words converter, the amount
formatter, the word-form ("lettres") conversion block of get_all_values,
the placeholder substitution engine, the CII section renderer and the
CII-list operations, together with theorems settling the specification's
claims about them.

Strings of the Python source are modelled as Lean String (for the pure
text producers) and as List Char (for the substitution engine, where
character-level reasoning is needed).
-/

/-- Character list, the model of Python strings inside the substitution
engine. -/
abbrev Str := List Char

/-- Python list indexing l[i]: a negative index counts from the end
(l[-1] is the last element).  An index out of range raises IndexError in
Python; that case is unreachable in this program for the inputs the
program accepts, and is totalised here to the empty string. -/
def pyIdx (l : List String) (i : Int) : String :=
  if i < 0 then l.getD (l.length - i.natAbs) "" else l.getD i.natAbs ""

/-- Decimal value of a list of ASCII digit characters, most significant
first. -/
def digitsVal (cs : List Char) : Nat :=
  cs.foldl (fun a c => a * 10 + (c.toNat - 48)) 0

/-- Whitespace stripping of Python str.strip() (as int() applies it to
its argument). -/
def pyStripWs (cs : List Char) : List Char :=
  ((cs.dropWhile Char.isWhitespace).reverse.dropWhile Char.isWhitespace).reverse

/-- The Python built-in int(string): optional surrounding whitespace, an
optional sign, then one or more digits.  Non-ASCII digits and underscore
grouping, which CPython also accepts, are outside this model; no input
the program feeds to int() uses them.  Returns none where Python raises
ValueError. -/
def pyInt (s : Str) : Option Int :=
  let t := pyStripWs s
  match t with
  | '+' :: ds =>
    if ds ≠ [] ∧ ds.all Char.isDigit then some ((digitsVal ds : Nat) : Int) else none
  | '-' :: ds =>
    if ds ≠ [] ∧ ds.all Char.isDigit then some (-((digitsVal ds : Nat) : Int)) else none
  | ds =>
    if ds ≠ [] ∧ ds.all Char.isDigit then some ((digitsVal ds : Nat) : Int) else none

/-- The digit character of a value below ten. -/
def digitChar (n : Nat) : Char := Char.ofNat (48 + n)

/-- Decimal digits, least significant first, by repeated division; the
fuel argument makes the recursion structural (kernel-reducible) and
never runs out when it starts at n + 1. -/
def natDigitsRevFuel : Nat → Nat → List Char
  | 0, _ => []
  | fuel + 1, n =>
    if n < 10 then [digitChar n] else digitChar (n % 10) :: natDigitsRevFuel fuel (n / 10)

/-- Decimal digits of a natural number, least significant first
(natDigitsRev 0 = the single digit 0, as Python renders it). -/
def natDigitsRev (n : Nat) : List Char := natDigitsRevFuel (n + 1) n

/-- Grouping of a least-significant-first digit list in threes: after
every three digits, when more remain, the separator is inserted.  This
is the grouping of Python's format specifier "," read from the right. -/
def group3 (sep : Char) : List Char → List Char
  | [] => []
  | [a] => [a]
  | [a, b] => [a, b]
  | [a, b, c] => [a, b, c]
  | a :: b :: c :: d :: rest => a :: b :: c :: sep :: group3 sep (d :: rest)

/-- Python f-string rendering f with the comma format specifier: the
sign, then the decimal digits grouped in threes by the given separator
character. -/
def pyThousands (sep : Char) (n : Int) : List Char :=
  (if n < 0 then ['-'] else []) ++ (group3 sep (natDigitsRev n.natAbs)).reverse

namespace TSGFA

namespace NumberToWords

/-- UNITS of class NumberToWords (src/TS_GFA.py). -/
def UNITS : List String :=
  ["", "un", "deux", "trois", "quatre", "cinq", "six", "sept", "huit", "neuf"]

/-- TEENS of class NumberToWords (src/TS_GFA.py). -/
def TEENS : List String :=
  ["dix", "onze", "douze", "treize", "quatorze", "quinze", "seize",
   "dix-sept", "dix-huit", "dix-neuf"]

/-- TENS of class NumberToWords (src/TS_GFA.py). -/
def TENS : List String :=
  ["", "", "vingt", "trente", "quarante", "cinquante", "soixante",
   "soixante-dix", "quatre-vingt", "quatre-vingt-dix"]

/-- NumberToWords._convert_hundreds (src/TS_GFA.py lines 90-136): the
words for a value from 0 to 999, the pieces joined by single spaces.
The source indexes TEENS[units - 10] with units between 1 and 9, a
negative Python index, rendered here through pyIdx. -/
def _convert_hundreds (number : Nat) : String :=
  let p1 : List String :=
    if number ≥ 100 then
      [if number / 100 = 1 then "cent" else pyIdx UNITS ((number / 100 : Nat) : Int) ++ " cent"]
    else []
  let m := if number ≥ 100 then number % 100 else number
  let p2 : List String :=
    if m ≥ 20 then
      let tens := m / 10
      let units := m % 10
      if tens = 7 then
        if units = 1 then ["soixante et onze"]
        else if units > 1 then ["soixante-" ++ pyIdx TEENS ((units : Int) - 10)]
        else ["soixante-dix"]
      else if tens = 9 then
        if units > 0 then ["quatre-vingt-" ++ pyIdx TEENS ((units : Int) - 10)]
        else ["quatre-vingt-dix"]
      else
        let tens_word := pyIdx TENS ((tens : Nat) : Int)
        if units = 1 ∧ tens ≠ 8 then [tens_word ++ " et un"]
        else if units > 0 then [tens_word ++ "-" ++ pyIdx UNITS ((units : Nat) : Int)]
        else if tens = 8 then ["quatre-vingts"]
        else [tens_word]
    else if m ≥ 10 then [pyIdx TEENS ((m : Int) - 10)]
    else if m > 0 then [pyIdx UNITS ((m : Nat) : Int)]
    else []
  String.intercalate " " (p1 ++ p2)

/-- The positive branch of NumberToWords.convert (src/TS_GFA.py lines
55-88): decomposition by billions, millions, thousands and the
remainder, the pieces joined by single spaces. -/
def convertPos (n : Nat) : String :=
  let p1 : List String :=
    if n ≥ 1000000000 then
      [if n / 1000000000 = 1 then "un milliard"
       else _convert_hundreds (n / 1000000000) ++ " milliards"]
    else []
  let n1 := if n ≥ 1000000000 then n % 1000000000 else n
  let p2 : List String :=
    if n1 ≥ 1000000 then
      [if n1 / 1000000 = 1 then "un million"
       else _convert_hundreds (n1 / 1000000) ++ " millions"]
    else []
  let n2 := if n1 ≥ 1000000 then n1 % 1000000 else n1
  let p3 : List String :=
    if n2 ≥ 1000 then
      [if n2 / 1000 = 1 then "mille"
       else _convert_hundreds (n2 / 1000) ++ " mille"]
    else []
  let n3 := if n2 ≥ 1000 then n2 % 1000 else n2
  let p4 : List String := if n3 > 0 then [_convert_hundreds n3] else []
  String.intercalate " " (p1 ++ p2 ++ p3 ++ p4)

/-- NumberToWords.convert (src/TS_GFA.py lines 46-88): zero is the word
for zero, a negative number is "moins " and the conversion of its
opposite (the source recurses into convert(-number), which lands in the
positive branch convertPos), and a positive number is converted by
descending scale. -/
def convert (number : Int) : String :=
  if number = 0 then "zéro"
  else if number < 0 then "moins " ++ convertPos (-number).toNat
  else convertPos number.toNat

end NumberToWords

/-- format_number_with_dots (src/TS_GFA.py lines 138-144): remove every
space and comma (the source's number.replace applied twice, a removal of
single characters, hence a filter), parse with int(), render through
f with the comma specifier and turn the commas into dots; on a parse
failure the input is returned unchanged.  Unlike the copy in
src/main.py, this variant does not remove dots before parsing. -/
def format_number_with_dots (number : String) : String :=
  match pyInt ((number.data.filter (fun c => c ≠ ' ')).filter (fun c => c ≠ ',')) with
  | some n => String.mk ((pyThousands ',' n).map (fun c => if c = ',' then '.' else c))
  | none => number

end TSGFA

namespace MainApp

namespace NumberToWords

/-- UNITS of class NumberToWords (src/main.py). -/
def UNITS : List String :=
  ["", "un", "deux", "trois", "quatre", "cinq", "six", "sept", "huit", "neuf"]

/-- TEENS of class NumberToWords (src/main.py). -/
def TEENS : List String :=
  ["dix", "onze", "douze", "treize", "quatorze", "quinze", "seize",
   "dix-sept", "dix-huit", "dix-neuf"]

/-- TENS of class NumberToWords (src/main.py). -/
def TENS : List String :=
  ["", "", "vingt", "trente", "quarante", "cinquante", "soixante",
   "soixante-dix", "quatre-vingt", "quatre-vingt-dix"]

/-- NumberToWords._convert_hundreds (src/main.py lines 87-133). -/
def _convert_hundreds (number : Nat) : String :=
  let p1 : List String :=
    if number ≥ 100 then
      [if number / 100 = 1 then "cent" else pyIdx UNITS ((number / 100 : Nat) : Int) ++ " cent"]
    else []
  let m := if number ≥ 100 then number % 100 else number
  let p2 : List String :=
    if m ≥ 20 then
      let tens := m / 10
      let units := m % 10
      if tens = 7 then
        if units = 1 then ["soixante et onze"]
        else if units > 1 then ["soixante-" ++ pyIdx TEENS ((units : Int) - 10)]
        else ["soixante-dix"]
      else if tens = 9 then
        if units > 0 then ["quatre-vingt-" ++ pyIdx TEENS ((units : Int) - 10)]
        else ["quatre-vingt-dix"]
      else
        let tens_word := pyIdx TENS ((tens : Nat) : Int)
        if units = 1 ∧ tens ≠ 8 then [tens_word ++ " et un"]
        else if units > 0 then [tens_word ++ "-" ++ pyIdx UNITS ((units : Nat) : Int)]
        else if tens = 8 then ["quatre-vingts"]
        else [tens_word]
    else if m ≥ 10 then [pyIdx TEENS ((m : Int) - 10)]
    else if m > 0 then [pyIdx UNITS ((m : Nat) : Int)]
    else []
  String.intercalate " " (p1 ++ p2)

/-- The positive branch of NumberToWords.convert (src/main.py lines
52-85). -/
def convertPos (n : Nat) : String :=
  let p1 : List String :=
    if n ≥ 1000000000 then
      [if n / 1000000000 = 1 then "un milliard"
       else _convert_hundreds (n / 1000000000) ++ " milliards"]
    else []
  let n1 := if n ≥ 1000000000 then n % 1000000000 else n
  let p2 : List String :=
    if n1 ≥ 1000000 then
      [if n1 / 1000000 = 1 then "un million"
       else _convert_hundreds (n1 / 1000000) ++ " millions"]
    else []
  let n2 := if n1 ≥ 1000000 then n1 % 1000000 else n1
  let p3 : List String :=
    if n2 ≥ 1000 then
      [if n2 / 1000 = 1 then "mille"
       else _convert_hundreds (n2 / 1000) ++ " mille"]
    else []
  let n3 := if n2 ≥ 1000 then n2 % 1000 else n2
  let p4 : List String := if n3 > 0 then [_convert_hundreds n3] else []
  String.intercalate " " (p1 ++ p2 ++ p3 ++ p4)

/-- NumberToWords.convert (src/main.py lines 43-85), the CII variant's
copy of the converter. -/
def convert (number : Int) : String :=
  if number = 0 then "zéro"
  else if number < 0 then "moins " ++ convertPos (-number).toNat
  else convertPos number.toNat

end NumberToWords

/-- format_number_with_dots (src/main.py lines 136-142): like the
TS_GFA.py copy, but the source also removes dots
(number.replace applied three times: spaces, commas, dots) before
parsing with int(). -/
def format_number_with_dots (number : String) : String :=
  match pyInt (((number.data.filter (fun c => c ≠ ' ')).filter (fun c => c ≠ ',')).filter
      (fun c => c ≠ '.')) with
  | some n => String.mk ((pyThousands ',' n).map (fun c => if c = ',' then '.' else c))
  | none => number

end MainApp

/-- The separator stripping applied to an amount before int() in the
word-form conversions (src/TS_GFA.py line 790 and the three like it,
src/main.py lines 443, 447, 451 and 483): value.replace removes every
space, dot and comma, each removal of a single character a filter. -/
def stripAmountChars (s : String) : Str :=
  ((s.data.filter (fun c => c ≠ ' ')).filter (fun c => c ≠ '.')).filter (fun c => c ≠ ',')

/-- One amount field inside the word-form conversion block: the field is
skipped when its value is empty (Python truthiness), its word form is
produced when the stripped value parses, and int() raises ValueError
otherwise.  some none = skipped, some (some w) = word form w, none =
ValueError raised. -/
def lettresStep (conv : Int → String) (v : String) : Option (Option String) :=
  if v = "" then some none
  else
    match pyInt (stripAmountChars v) with
    | some n => some (some (conv n))
    | none => none

/-- The word-form conversion block of get_all_values (src/TS_GFA.py
lines 788-806, src/main.py lines 441-455): the amount fields are
processed in their fixed order inside one try/except ValueError, so a
raise abandons the rest of the block and the except swallows the
error. -/
def lettresBlock (conv : Int → String) : List (String × String) → List (String × String)
  | [] => []
  | (k, v) :: rest =>
    match lettresStep conv v with
    | none => []
    | some none => lettresBlock conv rest
    | some (some w) => (k, w) :: lettresBlock conv rest

/-- The four word-form entries of the GFA variant's get_all_values, from
the four amount field texts; each value was first formatted by
format_number_with_dots (src/TS_GFA.py lines 752-757). -/
def gfaLettres (credit gfa frais apports : String) : List (String × String) :=
  lettresBlock TSGFA.NumberToWords.convert
    [("montant_credit_lettres", TSGFA.format_number_with_dots credit),
     ("montant_gfa_lettres", TSGFA.format_number_with_dots gfa),
     ("frais_dossier_lettres", TSGFA.format_number_with_dots frais),
     ("montant_apports_lettres", TSGFA.format_number_with_dots apports)]

/-- The three word-form entries of the CII variant's get_all_values
(src/main.py lines 430-455). -/
def ciiLettres (forfaitaire acte retainer : String) : List (String × String) :=
  lettresBlock MainApp.NumberToWords.convert
    [("commission_forfaitaire_lettres", MainApp.format_number_with_dots forfaitaire),
     ("frais_acte_lettres", MainApp.format_number_with_dots acte),
     ("commission_retainer_lettres", MainApp.format_number_with_dots retainer)]

/-- Modelled from the spec: format_with_dots strips the given separator
characters, parses the remainder as an integer, and re-renders it with
the dot as the thousands separator; on a parse failure the original
text is returned unchanged. -/
def specFormatWithSeps (seps : List Char) (number : String) : String :=
  match pyInt (number.data.filter (fun c => !(seps.contains c))) with
  | some n => String.mk (pyThousands '.' n)
  | none => number

/-- The left-to-right scan of Python str.replace: at each position, if
the pattern starts there, emit the replacement and jump past the
pattern, otherwise keep the character and move on.  The fuel argument
(started at the string's length) makes the scan structurally recursive,
hence kernel-reducible; it never runs out for a non-empty pattern. -/
def pyReplaceFuel (rep pat : Str) : Nat → Str → Str
  | _, [] => []
  | 0, s => s
  | fuel + 1, c :: rest =>
    if pat.isPrefixOf (c :: rest) then
      rep ++ pyReplaceFuel rep pat fuel ((c :: rest).drop pat.length)
    else c :: pyReplaceFuel rep pat fuel rest

/-- Python s.replace(pat, rep): every non-overlapping occurrence,
scanned left to right.  The engine's patterns (bracketed tokens) are
never empty; an empty pattern is totalised to the identity here. -/
def pyReplace (s pat rep : Str) : Str :=
  if pat.isEmpty then s else pyReplaceFuel rep pat s.length s

/-- The Python substring test (pat in text): pat is a prefix of some
suffix of text. -/
def pyContains (pat : Str) : Str → Bool
  | [] => pat.isEmpty
  | s@(_ :: rest) => pat.isPrefixOf s || pyContains pat rest

/-- The replacement loop of replace_in_paragraph (src/TS_GFA.py lines
1038-1042, src/main.py lines 666-670): for each (token, value) pair in
the dictionary's insertion order, if the token occurs in the current
text, replace every occurrence of it. -/
def replaceAll (reps : List (Str × Str)) (text : Str) : Str :=
  reps.foldl (fun t kv => if pyContains kv.1 t then pyReplace t kv.1 kv.2 else t) text

/-- A run of a python-docx paragraph: its text and the four font
attributes replace_in_paragraph copies forward (name, size, bold,
italic); none models an unset attribute. -/
structure Run where
  text : Str
  fontName : Option String
  fontSize : Option Nat
  bold : Option Bool
  italic : Option Bool
deriving DecidableEq

/-- paragraph.text of python-docx: the concatenation of the texts of
the paragraph's runs. -/
def paraText (runs : List Run) : Str := (runs.map Run.text).flatten

/-- replace_in_paragraph (src/TS_GFA.py lines 921-1069, src/main.py
lines 639-697) on the paragraph level: read the concatenated text, apply
every replacement, and only when the text changed clear the runs and
re-emit a single run carrying the new text with the first run's font
name, size, bold and italic (each copied only when Python finds it
truthy); a changed paragraph with no runs gets its text set directly
(one attribute-free run).  An unchanged paragraph is left exactly as it
was. -/
def replace_in_paragraph (reps : List (Str × Str)) (runs : List Run) : List Run :=
  let originalText := paraText runs
  let newText := replaceAll reps originalText
  if newText = originalText then runs
  else
    match runs with
    | [] => [⟨newText, none, none, none, none⟩]
    | r0 :: _ =>
      [⟨newText,
        (match r0.fontName with
         | some nm => if nm = "" then none else some nm
         | none => none),
        (match r0.fontSize with
         | some sz => if sz = 0 then none else some sz
         | none => none),
        (if r0.bold = some true then some true else none),
        (if r0.italic = some true then some true else none)⟩]

/-- The state replace_in_paragraph of the GFA variant reads: the string
entries of the values dictionary, the three checkbox booleans stored in
it, and the enabled flags of the seven optional-clause widgets. -/
structure GfaState where
  values : List (String × String)
  inclure_apports : Bool
  conditions_speculatives : Bool
  conditions_non_speculatives : Bool
  clausesEnabled : List Bool

/-- values.get(key, '') on the string entries of the values
dictionary. -/
def vget (values : List (String × String)) (k : String) : String :=
  (values.lookup k).getD ""

/-- The replacements dictionary of the GFA variant's
replace_in_paragraph (src/TS_GFA.py lines 926-1035), as the association
list of its insertion order: the literal entries, then the
commercialisation, speculative-conditions and optional-clause entries.
The keys are the bracketed tokens exactly as the source writes them. -/
def gfaReplacementsStr (st : GfaState) : List (String × String) :=
  let g := fun k => vget st.values k
  let clause := fun i => st.clausesEnabled.getD i false
  [("[Nom du promoteur]", g "nom_promoteur"),
   ("[nom]", g "nom_contact"),
   ("[Adresse du promoteur]", g "adresse_promoteur"),
   ("[date]", g "date"),
   ("[référence dossier]", g "reference_dossier"),
   ("[Monsieur/Madame/Messieurs]", g "civilite"),
   ("[NOM]", g "nom_sccv"),
   ("[n° siren]", g "numero_siren"),
   ("[Ville]", g "ville_rcs"),
   ("[nom de la SCCV]", g "nom_sccv"),
   ("[objet]", g "objet"),
   ("[le bailleur]", g "nom_bailleur_agrement"),
   ("[nombre_credit]", g "montant_credit"),
   ("[nombre_credit_lettres]", g "montant_credit_lettres"),
   ("[montant_credit]", g "montant_credit"),
   ("[montant_credit_lettres]", g "montant_credit_lettres"),
   ("[nombre_gfa]", g "montant_gfa"),
   ("[nombre_gfa_lettres]", g "montant_gfa_lettres"),
   ("[nombre_apport]", g "montant_apports"),
   ("[nombre_apport_lettres]", g "montant_apports_lettres"),
   ("[nombre_frais_dossier]", g "frais_dossier"),
   ("[nombre_frais_dossier_lettres]", g "frais_dossier_lettres"),
   ("[nombre_t3]", g "nombre_t3"),
   ("[nombre_t4]", g "nombre_t4"),
   ("[nombre_t5]", g "nombre_t5"),
   ("[taux_speculatif]", g "taux_speculatif"),
   ("[taux_non_speculatif]", g "taux_non_speculatif"),
   ("[taux_comission_engagement_speculatif]", g "taux_comission_engagement_speculatif"),
   ("[taux_comission_engagement_non_speculatif]", g "taux_comission_engagement_non_speculatif"),
   ("[taux_comission_forfaitaire]", g "taux_comission_forfaitaire"),
   ("[niveau_commercialisation_libre]", g "niveau_commercialisation_libre"),
   ("[nom_bailleur_agrement]", g "nom_bailleur_agrement"),
   ("[type_bloc]", g "type_bloc"),
   ("[date_echeance_gfa]", g "date_echeance_gfa"),
   ("[nom du bailleur]", g "nom_bailleur_reservation"),
   ("[nom_bailleur_reservation]", g "nom_bailleur_reservation"),
   ("[type_bloc_reservation]", g "type_bloc_reservation"),
   ("[niveau_commercialisation]", g "niveau_commercialisation"),
   ("[mention_apports]", if st.inclure_apports then "(en y ajoutant les apports)," else ""),
   ("[interets_speculatifs]",
    if st.conditions_speculatives then
      "Intérêts portant sur les sommes utilisées calculés sur l'EURIBOR de la durée du tirage (minimum un mois -- maximum 12 mois) majoré de "
        ++ g "taux_speculatif"
        ++ "% l'an, perçus d'avance le jour de la mise à disposition des fonds ;"
    else ""),
   ("[commission_speculative]",
    if st.conditions_speculatives then
      g "taux_comission_engagement_speculatif"
        ++ "% l'an, calculée sur le montant total du crédit autorisé et perçue trimestriellement et d'avance ;"
    else ""),
   ("[interets_non_speculatifs]",
    if st.conditions_non_speculatives then
      "Lorsque le montant du CA TTC des VEFA actées atteindra 40% et plus du Prix de Revient TTC, les intérêts portant sur les sommes utilisées calculés sur l'EURIBOR de la durée du tirage (minimum un mois -- maximum 12 mois) seront ramenés à "
        ++ g "taux_non_speculatif"
        ++ "% l'an, perçus d'avance le jour de la mise à disposition des fonds."
    else ""),
   ("[commission_non_speculative]",
    if st.conditions_non_speculatives then
      "Lorsque le montant du CA TTC des VEFA actées atteindra 40% et plus du Prix de Revient TTC, "
        ++ g "taux_comission_engagement_non_speculatif"
        ++ "% l'an, calculée sur le montant total du crédit autorisé et perçue trimestriellement et d'avance."
    else ""),
   ("[clause_garantie_actif_passif]",
    if clause 0 then
      "Le cas échéant, production de la garantie d'actif/passif fournie par les vendeurs et examen favorable de LCL ; \x7bcas rachat de parts de société\x7d"
    else ""),
   ("[clause_niveau_commercialisation_lots]",
    if clause 1 then
      "Justification d'un niveau de commercialisation incluant au moins "
        ++ g "nombre_t3" ++ " lots de type T3 ainsi qu'au moins "
        ++ g "nombre_t4" ++ " lots de type T4 et "
        ++ g "nombre_t5"
        ++ " lots de type T5 (attestation du Notaire indiquant le niveau de pré commercialisation) ;"
    else ""),
   ("[clause_accord_financement]",
    if clause 2 then
      "Justification de l'obtention d'un accord de principe de financement par la majorité des réservataires ;"
    else ""),
   ("[clause_agrement_bailleur]",
    if clause 3 then
      "Justification de l'obtention de l'agrément par " ++ g "nom_bailleur_agrement"
        ++ " pour la partie « " ++ g "type_bloc" ++ " » ;"
    else ""),
   ("[clause_engagement_pc]",
    if clause 4 then
      "Engagement de l'emprunteur d'informer la banque de toute demande de PC modificatif et ce jusqu'au remboursement complet des concours accordés ;"
    else ""),
   ("[clause_contrat_reservation]",
    if clause 5 then
      "Justification d'un contrat de réservation signé de " ++ g "nom_bailleur_reservation"
        ++ " pour la partie « " ++ g "type_bloc_reservation"
        ++ " » comprenant nom, adresse, prix de vente TTC et échéancier des versements ;"
    else ""),
   ("[clause_niveau_commercialisation_libre]",
    if st.clausesEnabled.length > 6 ∧ clause 6 then
      if g "niveau_commercialisation_libre" ≠ "" then
        "Justification d'un niveau de commercialisation du CATTC « libre » dépassant "
          ++ g "niveau_commercialisation_libre"
          ++ "% du CATTC « libre » (attestation notariée indiquant le niveau de pré commercialisation) ;"
      else ""
    else "")]

/-- The GFA replacements dictionary on the character-list level the
engine works at. -/
def gfaReplacements (st : GfaState) : List (Str × Str) :=
  (gfaReplacementsStr st).map (fun p => (p.1.data, p.2.data))

/-- The end-to-end GFA scenario of the spec: the banker types 1500000
into the Prix de (€ HT) field (montant_gfa), every other field is left
empty, the checkbox defaults hold and no optional clause is enabled.
get_all_values formats the amount and produces its word form. -/
def gfaScenarioState : GfaState :=
  { values :=
      [("montant_gfa", TSGFA.format_number_with_dots "1500000")] ++ gfaLettres "" "1500000" "" "",
    inclure_apports := true,
    conditions_speculatives := true,
    conditions_non_speculatives := true,
    clausesEnabled := [false, false, false, false, false, false, false] }

/-- One CII entry of the CII variant: the four field texts (as read
by .text().strip(), so already stripped). -/
structure CiiEntry where
  beneficiaires : String
  venant_au_droit : String
  montant : String
  date_echeance : String
deriving DecidableEq

/-- The fixed first line of one rendered CII. -/
def ciiHeader : String := "Caution d'indemnité d'immobilisation (CII) :\n\n"

/-- Point a of one rendered CII (generate_cii_section, src/main.py lines
491-497): nature with beneficiaries and, when present, the
transferor. -/
def ciiNature (e : CiiEntry) : String :=
  let t := "a. Caution d'indemnité d'immobilisation (CII), émise en faveur de " ++ e.beneficiaires
  let t := if e.venant_au_droit ≠ "" then t ++ ", venant au droit de " ++ e.venant_au_droit else t
  t ++ ".\n\n"

/-- Point b of one rendered CII (src/main.py lines 478-503): the
formatted amount, with the word form in parentheses when the amount
parses. -/
def ciiMontant (e : CiiEntry) : String :=
  let montant_formate := MainApp.format_number_with_dots e.montant
  let montant_lettres :=
    match pyInt (stripAmountChars e.montant) with
    | some n => MainApp.NumberToWords.convert n
    | none => ""
  let t := "b. Montant : " ++ montant_formate ++ " €"
  let t := if montant_lettres ≠ "" then t ++ " (" ++ montant_lettres ++ " euros)" else t
  t ++ ".\n\n"

/-- Point c of one rendered CII (src/main.py line 506). -/
def ciiDate (e : CiiEntry) : String :=
  "c. Date d'échéance : " ++ e.date_echeance ++ ".\n\n"

/-- The full text of one rendered CII. -/
def ciiText (e : CiiEntry) : String :=
  ciiHeader ++ ciiNature e ++ ciiMontant e ++ ciiDate e

/-- An entry that generate_cii_section keeps: none of beneficiaries,
amount and due date is empty (the source's continue-guard,
src/main.py line 475). -/
def ciiKeep (e : CiiEntry) : Bool :=
  !(e.beneficiaires == "" || e.montant == "" || e.date_echeance == "")

/-- The loop of generate_cii_section: each entry in order, the
incomplete ones skipped. -/
def ciiSectionsList : List CiiEntry → List String
  | [] => []
  | e :: rest =>
    if e.beneficiaires = "" ∨ e.montant = "" ∨ e.date_echeance = "" then ciiSectionsList rest
    else ciiText e :: ciiSectionsList rest

/-- generate_cii_section (src/main.py lines 459-510): an empty widget
list yields the empty string, otherwise the rendered sections joined by
newlines.  Its result is the value of the [section_complete_cii]
placeholder in get_all_values. -/
def generate_cii_section (entries : List CiiEntry) : String :=
  if entries.isEmpty then "" else String.intercalate "\n" (ciiSectionsList entries)

/-- add_cii (src/main.py lines 333-380): appends one fresh CII widget
group, all four of its line edits empty. -/
def add_cii (l : List CiiEntry) : List CiiEntry := l ++ [⟨"", "", "", ""⟩]

/-- remove_cii (src/main.py lines 382-395): pops the last CII only when
more than one is present, otherwise leaves the list unchanged. -/
def remove_cii (l : List CiiEntry) : List CiiEntry :=
  if l.length > 1 then l.dropLast else l

/-- The CII list right after setup_ui, which starts from the empty list
and calls add_cii once (src/main.py lines 245 and 264-265). -/
def ciiInitState : List CiiEntry := add_cii []

/-- The CII lists reachable from initialization by add_cii and
remove_cii clicks. -/
inductive CiiReachable : List CiiEntry → Prop
  | init : CiiReachable ciiInitState
  | add {l : List CiiEntry} : CiiReachable l → CiiReachable (add_cii l)
  | remove {l : List CiiEntry} : CiiReachable l → CiiReachable (remove_cii l)

/-- One piece of a template paragraph, for the order-insensitivity
analysis of the replacement loop: a literal chunk, or a bracketed token
whose word (the text between the brackets) is w. -/
inductive Seg where
  | lit (c : Str)
  | tok (w : Str)
deriving DecidableEq

/-- The text of one paragraph piece. -/
def renderSeg : Seg → Str
  | .lit c => c
  | .tok w => '[' :: (w ++ [']'])

/-- The paragraph text of a list of pieces. -/
def renderSegs (segs : List Seg) : Str := (segs.map renderSeg).flatten

/-- A string with no bracket character. -/
def bracketFree (s : Str) : Bool := s.all (fun c => c ≠ '[' && c ≠ ']')

/-- The word between the brackets of a token string. -/
def wordOf (t : Str) : Str := (t.drop 1).dropLast

/-- A well-formed engine token: an opening bracket, a bracket-free word,
a closing bracket (the shape of every key of the replacements
dictionaries). -/
def wellFormedToken (t : Str) : Bool :=
  (t == '[' :: (wordOf t ++ [']'])) && bracketFree (wordOf t)

/-- Well-formedness of one paragraph piece: its literal text, or its
token word, has no bracket character. -/
def segWF : Seg → Bool
  | .lit c => bracketFree c
  | .tok w => bracketFree w

/-- Well-formedness of a paragraph decomposition. -/
def segsWF (segs : List Seg) : Bool := segs.all segWF

/-- The effect of one replacement pat → rep on one paragraph piece: the
token whose rendered form is pat becomes the literal rep, everything
else is untouched. -/
def substSeg (pat rep : Str) : Seg → Seg
  | .lit c => .lit c
  | .tok w => if '[' :: (w ++ [']']) = pat then .lit rep else .tok w

/-- C3: NumberToWords.convert returns exactly the listed French word
forms at each listed input: 0, 21, 71, 72, 80, 81, 91, 100, 200, 1000,
2000 and 1000000. -/
theorem convert_listed_values :
    TSGFA.NumberToWords.convert 0 = "zéro" ∧
    TSGFA.NumberToWords.convert 21 = "vingt et un" ∧
    TSGFA.NumberToWords.convert 71 = "soixante et onze" ∧
    TSGFA.NumberToWords.convert 72 = "soixante-douze" ∧
    TSGFA.NumberToWords.convert 80 = "quatre-vingts" ∧
    TSGFA.NumberToWords.convert 81 = "quatre-vingt-un" ∧
    TSGFA.NumberToWords.convert 91 = "quatre-vingt-onze" ∧
    TSGFA.NumberToWords.convert 100 = "cent" ∧
    TSGFA.NumberToWords.convert 200 = "deux cent" ∧
    TSGFA.NumberToWords.convert 1000 = "mille" ∧
    TSGFA.NumberToWords.convert 2000 = "deux mille" ∧
    TSGFA.NumberToWords.convert 1000000 = "un million" := by
  decide

/-- C7: for every positive integer n, NumberToWords.convert (-n) is the
string "moins " followed by NumberToWords.convert n. -/
theorem convert_neg_eq_moins (n : Int) (h : 0 < n) :
    TSGFA.NumberToWords.convert (-n) = "moins " ++ TSGFA.NumberToWords.convert n := by
  unfold TSGFA.NumberToWords.convert
  rw [if_neg (by omega), if_pos (by omega), if_neg (by omega), if_neg (by omega), neg_neg]

/-- Witness for C7 at n = 5. -/
theorem convert_neg_eq_moins_witness :
    TSGFA.NumberToWords.convert (-5) = "moins " ++ TSGFA.NumberToWords.convert 5 :=
  convert_neg_eq_moins 5 (by norm_num)

/-- C9: the converter of src/TS_GFA.py and the converter of src/main.py
agree on every integer (the two classes are copies of each other, and
their Lean embeddings are definitionally equal). -/
theorem convert_copies_agree (n : Int) :
    TSGFA.NumberToWords.convert n = MainApp.NumberToWords.convert n := rfl

/-- Every character produced by natDigitsRevFuel is a digit character. -/
theorem natDigitsRevFuel_mem (fuel : Nat) :
    ∀ (n : Nat), ∀ c ∈ natDigitsRevFuel fuel n, ∃ k, k < 10 ∧ c = digitChar k := by
  induction fuel with
  | zero => intro n c hc; simp [natDigitsRevFuel] at hc
  | succ fuel ih =>
    intro n c hc
    by_cases h : n < 10
    · rw [natDigitsRevFuel, if_pos h] at hc
      simp only [List.mem_singleton] at hc
      exact ⟨n, h, hc⟩
    · rw [natDigitsRevFuel, if_neg h] at hc
      rcases List.mem_cons.mp hc with h1 | h1
      · exact ⟨n % 10, Nat.mod_lt _ (by omega), h1⟩
      · exact ih _ c h1

/-- Every character of natDigitsRev is a digit character. -/
theorem natDigitsRev_mem (n : Nat) :
    ∀ c ∈ natDigitsRev n, ∃ k, k < 10 ∧ c = digitChar k :=
  natDigitsRevFuel_mem (n + 1) n

/-- A digit character is none of the separator characters. -/
theorem digitChar_ne_sep : ∀ k, k < 10 → digitChar k ≠ ',' ∧ digitChar k ≠ '.' := by decide

/-- The comma-to-dot character substitution fixes digit characters. -/
theorem swap_fixes_digit (c : Char) (h : ∃ k, k < 10 ∧ c = digitChar k) :
    (if c = ',' then '.' else c) = c := by
  obtain ⟨k, hk, rfl⟩ := h
  rw [if_neg (digitChar_ne_sep k hk).1]

/-- Replacing commas by dots in a comma-grouped digit list yields the
dot-grouped digit list. -/
theorem map_swap_group3 :
    ∀ ds : List Char, (∀ c ∈ ds, ∃ k, k < 10 ∧ c = digitChar k) →
      (group3 ',' ds).map (fun c => if c = ',' then '.' else c) = group3 '.' ds
  | [], _ => rfl
  | [a], h => by
    simp only [group3, List.map]
    rw [swap_fixes_digit a (h a (by simp))]
  | [a, b], h => by
    simp only [group3, List.map]
    rw [swap_fixes_digit a (h a (by simp)), swap_fixes_digit b (h b (by simp))]
  | [a, b, c], h => by
    simp only [group3, List.map]
    rw [swap_fixes_digit a (h a (by simp)), swap_fixes_digit b (h b (by simp)),
      swap_fixes_digit c (h c (by simp))]
  | a :: b :: c :: d :: rest, h => by
    have hr := map_swap_group3 (d :: rest) (fun x hx => h x (by simp [hx]))
    simp only [group3, List.map, hr, swap_fixes_digit a (h a (by simp)),
      swap_fixes_digit b (h b (by simp)), swap_fixes_digit c (h c (by simp))]
    simp

/-- Replacing commas by dots in the comma-thousands rendering yields the
dot-thousands rendering. -/
theorem map_swap_pyThousands (n : Int) :
    (pyThousands ',' n).map (fun c => if c = ',' then '.' else c) = pyThousands '.' n := by
  unfold pyThousands
  rw [List.map_append, List.map_reverse,
    map_swap_group3 (natDigitsRev n.natAbs) (natDigitsRev_mem n.natAbs)]
  congr 1
  split <;> simp

/-- C5 (amended): format_number_with_dots strips spaces and commas (and,
in the CII variant only, also dots), parses the remainder with int(),
and re-renders it with the dot as the thousands separator, so that both
variants send "1000000" to "1.000.000"; when the stripped text does not
parse, the original input is returned unchanged. -/
theorem format_with_dots_characterisation :
    (∀ s : String,
      TSGFA.format_number_with_dots s = specFormatWithSeps [' ', ','] s ∧
      MainApp.format_number_with_dots s = specFormatWithSeps [' ', ',', '.'] s) ∧
    TSGFA.format_number_with_dots "1000000" = "1.000.000" ∧
    MainApp.format_number_with_dots "1000000" = "1.000.000" := by
  refine ⟨fun s => ⟨?_, ?_⟩, by decide, by decide⟩
  · unfold TSGFA.format_number_with_dots specFormatWithSeps
    rw [List.filter_filter]
    rw [List.filter_congr (l := s.data)
      (q := fun c => !(List.contains [' ', ','] c)) ?_]
    · cases pyInt (s.data.filter fun c => !(List.contains [' ', ','] c)) with
      | none => rfl
      | some n => simp only [map_swap_pyThousands]
    · intro c _
      by_cases h1 : c = ' ' <;> by_cases h2 : c = ',' <;>
        simp [h1, h2, List.contains]
  · unfold MainApp.format_number_with_dots specFormatWithSeps
    rw [List.filter_filter, List.filter_filter]
    rw [List.filter_congr (l := s.data)
      (q := fun c => !(List.contains [' ', ',', '.'] c)) ?_]
    · cases pyInt (s.data.filter fun c => !(List.contains [' ', ',', '.'] c)) with
      | none => rfl
      | some n => simp only [map_swap_pyThousands]
    · intro c _
      by_cases h1 : c = ' ' <;> by_cases h2 : c = ',' <;> by_cases h3 : c = '.' <;>
        simp [h1, h2, h3, List.contains]

/-- C5 (counterexample): the two copies of format_number_with_dots do
not implement one common stripping behaviour: on "1.0000" the GFA copy
(which does not strip dots) returns the input unchanged while the CII
copy (which strips dots) parses 10000 and renders "10.000", so the
claim's single description is false for at least one of the variants
whichever characters "thousands separators" denotes. -/
theorem format_with_dots_variants_differ :
    TSGFA.format_number_with_dots "1.0000" = "1.0000" ∧
    MainApp.format_number_with_dots "1.0000" = "10.000" := by decide

/-- C4 (amended): the word-form conversion block emits, in field order,
exactly the entries of the fields that precede the first parse failure
(skipping empty fields); a field whose text fails to parse gets no
entry, the failure is swallowed, and every field after the first failing
one is skipped as well, because all fields share one try/except
block. -/
theorem lettresBlock_prefix (conv : Int → String) (pairs : List (String × String)) :
    lettresBlock conv pairs =
      (pairs.takeWhile (fun p => (lettresStep conv p.2).isSome)).filterMap
        (fun p =>
          match lettresStep conv p.2 with
          | some (some w) => some (p.1, w)
          | _ => none) := by
  induction pairs with
  | nil => rfl
  | cons p rest ih =>
    obtain ⟨k, v⟩ := p
    cases h : lettresStep conv v with
    | none => simp [lettresBlock, List.takeWhile_cons, h]
    | some o =>
      cases o with
      | none => simp [lettresBlock, List.takeWhile_cons, List.filterMap_cons, h, ih]
      | some w => simp [lettresBlock, List.takeWhile_cons, List.filterMap_cons, h, ih]

/-- C4 (counterexample): in the GFA variant, with montant_credit "abc"
(which does not parse) and montant_gfa "5" (which parses), no
montant_gfa_lettres entry is produced — the whole block is abandoned at
the first ValueError — although with an empty montant_credit the same
montant_gfa text does earn its entry. -/
theorem lettres_skipped_after_failure :
    gfaLettres "abc" "5" "" "" = [] ∧
    gfaLettres "" "5" "" "" = [("montant_gfa_lettres", "cinq")] := by decide

/-- pyReplaceFuel of the empty string is empty at every fuel. -/
theorem pyReplaceFuel_nilList (rep pat : Str) (f : Nat) : pyReplaceFuel rep pat f [] = [] := by
  cases f <;> rfl

/-- The one-step unfolding of pyReplaceFuel at positive fuel on a
non-empty string. -/
theorem pyReplaceFuel_succ_cons (rep pat : Str) (f : Nat) (c : Char) (rest : Str) :
    pyReplaceFuel rep pat (f + 1) (c :: rest) =
      if pat.isPrefixOf (c :: rest) then
        rep ++ pyReplaceFuel rep pat f ((c :: rest).drop pat.length)
      else c :: pyReplaceFuel rep pat f rest := rfl

/-- For a non-empty pattern, any fuel at least the string's length gives
the same result. -/
theorem pyReplaceFuel_congr (rep pat : Str) (hpat : pat ≠ []) :
    ∀ f1 f2 s, s.length ≤ f1 → s.length ≤ f2 →
      pyReplaceFuel rep pat f1 s = pyReplaceFuel rep pat f2 s := by
  intro f1
  induction f1 with
  | zero =>
    intro f2 s h1 _
    have hs : s = [] := List.eq_nil_of_length_eq_zero (Nat.le_zero.mp h1)
    subst hs
    rw [pyReplaceFuel_nilList, pyReplaceFuel_nilList]
  | succ f ih =>
    intro f2 s h1 h2
    cases s with
    | nil => rw [pyReplaceFuel_nilList, pyReplaceFuel_nilList]
    | cons c rest =>
      cases f2 with
      | zero => simp at h2
      | succ f2 =>
        have hplen : 1 ≤ pat.length := by
          cases pat with
          | nil => exact absurd rfl hpat
          | cons _ _ => simp
        have h1' : rest.length ≤ f := by simp at h1; omega
        have h2' : rest.length ≤ f2 := by simp at h2; omega
        rw [pyReplaceFuel_succ_cons, pyReplaceFuel_succ_cons]
        by_cases hp : pat.isPrefixOf (c :: rest) = true
        · rw [if_pos hp, if_pos hp,
            ih f2 ((c :: rest).drop pat.length) (by simp [List.length_drop]; omega)
              (by simp [List.length_drop]; omega)]
        · rw [if_neg hp, if_neg hp, ih f2 rest h1' h2']

/-- pyReplace of the empty string is empty. -/
theorem pyReplace_nilList (pat rep : Str) : pyReplace [] pat rep = [] := by
  unfold pyReplace
  split <;> rfl

/-- The one-step unfolding of pyReplace on a non-empty string, for a
non-empty pattern. -/
theorem pyReplace_cons (pat rep : Str) (hpat : pat ≠ []) (c : Char) (rest : Str) :
    pyReplace (c :: rest) pat rep =
      if pat.isPrefixOf (c :: rest) then
        rep ++ pyReplace ((c :: rest).drop pat.length) pat rep
      else c :: pyReplace rest pat rep := by
  have hplen : 1 ≤ pat.length := by
    cases pat with
    | nil => exact absurd rfl hpat
    | cons _ _ => simp
  have hne : ¬(pat.isEmpty = true) := by
    cases pat with
    | nil => exact absurd rfl hpat
    | cons _ _ => simp
  unfold pyReplace
  rw [if_neg hne, if_neg hne, if_neg hne]
  simp only [List.length_cons]
  rw [pyReplaceFuel_succ_cons]
  by_cases hp : pat.isPrefixOf (c :: rest) = true
  · rw [if_pos hp, if_pos hp,
      pyReplaceFuel_congr rep pat hpat rest.length ((c :: rest).drop pat.length).length
        ((c :: rest).drop pat.length) (by simp [List.length_drop]; omega) le_rfl]
  · rw [if_neg hp, if_neg hp]

/-- A pattern that does not occur in a string replaces to the string
itself. -/
theorem pyReplace_of_not_contains (pat rep : Str) (hpat : pat ≠ []) :
    ∀ s, pyContains pat s = false → pyReplace s pat rep = s := by
  intro s
  induction s with
  | nil => intro _; exact pyReplace_nilList pat rep
  | cons c rest ih =>
    intro h
    have hstep : pyContains pat (c :: rest) = (pat.isPrefixOf (c :: rest) || pyContains pat rest) := rfl
    rw [hstep, Bool.or_eq_false_iff] at h
    rw [pyReplace_cons pat rep hpat, if_neg (by simp [h.1]), ih h.2]

/-- Scanning for a bracket-opened pattern passes over a chunk with no
opening bracket. -/
theorem pyReplace_append_no_open (pt rep r : Str) :
    ∀ c : Str, (∀ ch ∈ c, ch ≠ '[') →
      pyReplace (c ++ r) ('[' :: pt) rep = c ++ pyReplace r ('[' :: pt) rep := by
  intro c
  induction c with
  | nil => intro _; simp
  | cons ch c' ih =>
    intro h
    have hch : ch ≠ '[' := h ch (by simp)
    have hpref : ¬(('[' :: pt).isPrefixOf (ch :: (c' ++ r)) = true) := by
      rw [List.isPrefixOf_iff_prefix, List.cons_prefix_cons]
      rintro ⟨h1, -⟩
      exact hch h1.symm
    rw [List.cons_append, pyReplace_cons _ _ (by simp) ch (c' ++ r), if_neg hpref,
      ih (fun x hx => h x (by simp [hx])), List.cons_append]

/-- Scanning a string that starts with the pattern itself replaces it
there and continues after it. -/
theorem pyReplace_pat_append (pat rep r : Str) (hpat : pat ≠ []) :
    pyReplace (pat ++ r) pat rep = rep ++ pyReplace r pat rep := by
  cases pat with
  | nil => exact absurd rfl hpat
  | cons p ps =>
    have hpre : (p :: ps).isPrefixOf ((p :: ps) ++ r) = true := by
      rw [List.isPrefixOf_iff_prefix]
      exact List.prefix_append _ _
    have hdrop : ((p :: ps) ++ r).drop (p :: ps).length = r := List.drop_left _ _
    simp only [List.cons_append] at hpre hdrop ⊢
    rw [pyReplace_cons _ _ hpat p (ps ++ r), if_pos hpre, hdrop]

/-- bracketFree unpacked to membership form. -/
theorem bracketFree_iff (s : Str) :
    bracketFree s = true ↔ ∀ c ∈ s, c ≠ '[' ∧ c ≠ ']' := by
  simp [bracketFree, List.all_eq_true]

/-- Two bracket-free words that close at the same bracket are equal:
a prefix relation between word-then-bracket strings forces the words to
coincide. -/
theorem bracket_word_prefix_eq :
    ∀ (a b r : Str), (∀ c ∈ a, c ≠ ']') → (∀ c ∈ b, c ≠ ']') →
      (a ++ [']']) <+: (b ++ ']' :: r) → a = b := by
  intro a
  induction a with
  | nil =>
    intro b r _ hb hp
    cases b with
    | nil => rfl
    | cons bc b' =>
      simp only [List.nil_append, List.cons_append] at hp
      rw [List.cons_prefix_cons] at hp
      exact absurd hp.1.symm (hb bc (by simp))
  | cons ac a' ih =>
    intro b r ha hb hp
    cases b with
    | nil =>
      simp only [List.cons_append, List.nil_append] at hp
      rw [List.cons_prefix_cons] at hp
      exact absurd hp.1 (ha ac (by simp))
    | cons bc b' =>
      simp only [List.cons_append] at hp
      rw [List.cons_prefix_cons] at hp
      rw [hp.1,
        ih b' r (fun x hx => ha x (by simp [hx])) (fun x hx => hb x (by simp [hx])) hp.2]

/-- Two rendered tokens are equal exactly when their words are. -/
theorem tokStr_inj (w wp : Str) :
    (('[' :: (w ++ [']']) : Str) = '[' :: (wp ++ [']'])) ↔ w = wp := by
  simp

/-- Scanning for one token passes over a different token unchanged. -/
theorem pyReplace_skip_token (wp w rep r : Str)
    (hwp : bracketFree wp = true) (hw : bracketFree w = true) (hne : w ≠ wp) :
    pyReplace (('[' :: (w ++ [']'])) ++ r) ('[' :: (wp ++ [']'])) rep
      = ('[' :: (w ++ [']'])) ++ pyReplace r ('[' :: (wp ++ [']'])) rep := by
  have hwp' := (bracketFree_iff wp).mp hwp
  have hw' := (bracketFree_iff w).mp hw
  have hpref : ¬(('[' :: (wp ++ [']'])).isPrefixOf ('[' :: (w ++ (']' :: r))) = true) := by
    rw [List.isPrefixOf_iff_prefix, List.cons_prefix_cons]
    rintro ⟨-, hp⟩
    exact hne (bracket_word_prefix_eq wp w r (fun c hc => (hwp' c hc).2)
      (fun c hc => (hw' c hc).2) hp).symm
  have hclose : ¬(('[' :: (wp ++ [']'])).isPrefixOf (']' :: r) = true) := by
    rw [List.isPrefixOf_iff_prefix, List.cons_prefix_cons]
    rintro ⟨h1, -⟩
    exact absurd h1 (by decide)
  have hmid : pyReplace (w ++ (']' :: r)) ('[' :: (wp ++ [']'])) rep
      = w ++ pyReplace (']' :: r) ('[' :: (wp ++ [']'])) rep :=
    pyReplace_append_no_open (wp ++ [']']) rep (']' :: r) w (fun c hc => (hw' c hc).1)
  have hlast : pyReplace (']' :: r) ('[' :: (wp ++ [']'])) rep
      = ']' :: pyReplace r ('[' :: (wp ++ [']'])) rep := by
    rw [pyReplace_cons _ _ (by simp) ']' r, if_neg hclose]
  simp only [List.cons_append, List.append_assoc, List.singleton_append, List.nil_append]
  rw [pyReplace_cons _ _ (by simp) '[' (w ++ (']' :: r)), if_neg hpref, hmid, hlast]

/-- One replacement distributes over a well-formed paragraph
decomposition: the matching token pieces become their value, everything
else is untouched. -/
theorem pyReplace_renderSegs (wp rep : Str) (hwp : bracketFree wp = true) :
    ∀ segs : List Seg, segsWF segs = true →
      pyReplace (renderSegs segs) ('[' :: (wp ++ [']'])) rep
        = renderSegs (segs.map (substSeg ('[' :: (wp ++ [']'])) rep)) := by
  intro segs
  induction segs with
  | nil => intro _; simpa [renderSegs] using pyReplace_nilList _ _
  | cons s rest ih =>
    intro hwf
    have hs : segWF s = true := by
      simp only [segsWF, List.all_cons, Bool.and_eq_true] at hwf
      exact hwf.1
    have hrest : segsWF rest = true := by
      simp only [segsWF, List.all_cons, Bool.and_eq_true] at hwf
      exact hwf.2
    cases s with
    | lit c =>
      have h1 : renderSegs (Seg.lit c :: rest) = c ++ renderSegs rest := by
        simp [renderSegs, renderSeg]
      have hc : ∀ ch ∈ c, ch ≠ '[' := by
        intro ch hch
        exact (((bracketFree_iff c).mp hs) ch hch).1
      rw [h1, pyReplace_append_no_open _ _ _ c hc, ih hrest]
      simp [renderSegs, renderSeg, substSeg]
    | tok w =>
      have h1 : renderSegs (Seg.tok w :: rest) = ('[' :: (w ++ [']'])) ++ renderSegs rest := by
        simp [renderSegs, renderSeg]
      by_cases hew : w = wp
      · subst hew
        rw [h1, pyReplace_pat_append _ _ _ (by simp), ih hrest]
        simp [renderSegs, renderSeg, substSeg]
      · rw [h1, pyReplace_skip_token wp w rep _ hwp hs hew, ih hrest]
        have hne : ¬(('[' :: (w ++ [']']) : Str) = '[' :: (wp ++ [']'])) := by
          rw [tokStr_inj]
          exact hew
        simp [renderSegs, renderSeg, substSeg, hne]

/-- substSeg preserves well-formedness when the value is
bracket-free. -/
theorem segsWF_map_substSeg (pat rep : Str) (hrep : bracketFree rep = true)
    (segs : List Seg) (h : segsWF segs = true) :
    segsWF (segs.map (substSeg pat rep)) = true := by
  simp only [segsWF, List.all_eq_true] at *
  intro s hs
  rcases List.mem_map.mp hs with ⟨t, ht, rfl⟩
  have hwt := h t ht
  cases t with
  | lit c => simpa [substSeg, segWF] using hwt
  | tok w =>
    by_cases he : ('[' :: (w ++ [']']) : Str) = pat
    · simp [substSeg, he, segWF, hrep]
    · simpa [substSeg, he, segWF] using hwt

/-- The conditional replacement step of the engine's loop is the plain
replacement: when the token does not occur, replacing is the
identity. -/
theorem replaceAll_eq_foldl (reps : List (Str × Str)) :
    ∀ t, (∀ p ∈ reps, p.1 ≠ []) →
      replaceAll reps t = reps.foldl (fun t kv => pyReplace t kv.1 kv.2) t := by
  induction reps with
  | nil => intro t _; rfl
  | cons kv rest ih =>
    intro t h
    have hk : kv.1 ≠ [] := h kv (by simp)
    have hrest : ∀ p ∈ rest, p.1 ≠ [] := fun p hp => h p (by simp [hp])
    simp only [replaceAll, List.foldl_cons] at ih ⊢
    by_cases hc : pyContains kv.1 t = true
    · rw [if_pos hc]
      exact ih _ hrest
    · rw [if_neg hc, pyReplace_of_not_contains kv.1 kv.2 hk t (by simpa using hc)]
      exact ih _ hrest

/-- Folding the replacements over a rendered decomposition substitutes
piece by piece. -/
theorem foldl_pyReplace_renderSegs :
    ∀ (reps : List (Str × Str)) (segs : List Seg),
      (∀ p ∈ reps, wellFormedToken p.1 = true ∧ bracketFree p.2 = true) →
      segsWF segs = true →
      reps.foldl (fun t kv => pyReplace t kv.1 kv.2) (renderSegs segs)
        = renderSegs (reps.foldl (fun sg kv => sg.map (substSeg kv.1 kv.2)) segs) := by
  intro reps
  induction reps with
  | nil => intro segs _ _; rfl
  | cons kv rest ih =>
    intro segs h hwf
    have hk := (h kv (by simp)).1
    have hv := (h kv (by simp)).2
    have hk1 : kv.1 = '[' :: (wordOf kv.1 ++ [']']) := by
      simp only [wellFormedToken, Bool.and_eq_true, beq_iff_eq] at hk
      exact hk.1
    have hk2 : bracketFree (wordOf kv.1) = true := by
      simp only [wellFormedToken, Bool.and_eq_true, beq_iff_eq] at hk
      exact hk.2
    have hrest : ∀ p ∈ rest, wellFormedToken p.1 = true ∧ bracketFree p.2 = true :=
      fun p hp => h p (by simp [hp])
    simp only [List.foldl_cons]
    have hstep : pyReplace (renderSegs segs) kv.1 kv.2
        = renderSegs (segs.map (substSeg kv.1 kv.2)) := by
      conv_lhs => rw [hk1]
      rw [pyReplace_renderSegs (wordOf kv.1) kv.2 hk2 segs hwf, ← hk1]
    rw [hstep, ih (segs.map (substSeg kv.1 kv.2)) hrest (segsWF_map_substSeg kv.1 kv.2 hv segs hwf)]

/-- Folding segment substitutions over a list is mapping the per-piece
fold. -/
theorem foldl_substSeg_map :
    ∀ (reps : List (Str × Str)) (segs : List Seg),
      reps.foldl (fun sg kv => sg.map (substSeg kv.1 kv.2)) segs
        = segs.map (fun s => reps.foldl (fun x kv => substSeg kv.1 kv.2 x) s) := by
  intro reps
  induction reps with
  | nil => intro segs; simp
  | cons kv rest ih =>
    intro segs
    simp only [List.foldl_cons]
    rw [ih (segs.map (substSeg kv.1 kv.2)), List.map_map]
    rfl

/-- A literal piece survives every substitution. -/
theorem foldl_substSeg_lit (reps : List (Str × Str)) (c : Str) :
    reps.foldl (fun x kv => substSeg kv.1 kv.2 x) (Seg.lit c) = Seg.lit c := by
  induction reps with
  | nil => rfl
  | cons kv rest ih => simpa [substSeg] using ih

/-- A token piece under the substitution fold becomes the value of the
first pair whose key is the rendered token, and survives when no pair
has that key. -/
theorem foldl_substSeg_tok (reps : List (Str × Str)) (w : Str) :
    reps.foldl (fun x kv => substSeg kv.1 kv.2 x) (Seg.tok w)
      = (match reps.find? (fun kv => '[' :: (w ++ [']']) == kv.1) with
         | some kv => Seg.lit kv.2
         | none => Seg.tok w) := by
  induction reps with
  | nil => rfl
  | cons kv rest ih =>
    simp only [List.foldl_cons]
    by_cases he : ('[' :: (w ++ [']']) : Str) = kv.1
    · rw [List.find?_cons_of_pos _ (by simpa using he)]
      simp only [substSeg, if_pos he]
      exact foldl_substSeg_lit rest kv.2
    · rw [List.find?_cons_of_neg _ (by simpa using he)]
      simp only [substSeg, if_neg he]
      exact ih

/-- C2 (amended): sequential substring replacement is not
order-insensitive for arbitrary replacement values (see the
counterexample), but it is under bracket discipline: when the paragraph
text decomposes into bracket-free literal chunks and whole bracketed
tokens, every key of the map is a bracketed bracket-free word, equal
keys carry equal values, and every value is bracket-free, then two
replacement orders containing the same token→value pairs produce the
same text. -/
theorem replaceAll_order_insensitive (reps1 reps2 : List (Str × Str)) (segs : List Seg)
    (hwf : ∀ p ∈ reps1, wellFormedToken p.1 = true ∧ bracketFree p.2 = true)
    (hfun : ∀ p ∈ reps1, ∀ q ∈ reps1, p.1 = q.1 → p.2 = q.2)
    (h12 : ∀ p ∈ reps1, p ∈ reps2) (h21 : ∀ p ∈ reps2, p ∈ reps1)
    (hsegs : segsWF segs = true) :
    replaceAll reps1 (renderSegs segs) = replaceAll reps2 (renderSegs segs) := by
  have hwf2 : ∀ p ∈ reps2, wellFormedToken p.1 = true ∧ bracketFree p.2 = true :=
    fun p hp => hwf p (h21 p hp)
  have hne1 : ∀ p ∈ reps1, p.1 ≠ [] := by
    intro p hp
    have hw := (hwf p hp).1
    simp only [wellFormedToken, Bool.and_eq_true, beq_iff_eq] at hw
    rw [hw.1]
    simp
  have hne2 : ∀ p ∈ reps2, p.1 ≠ [] := fun p hp => hne1 p (h21 p hp)
  rw [replaceAll_eq_foldl reps1 _ hne1, replaceAll_eq_foldl reps2 _ hne2,
    foldl_pyReplace_renderSegs reps1 segs hwf hsegs,
    foldl_pyReplace_renderSegs reps2 segs hwf2 hsegs,
    foldl_substSeg_map reps1 segs, foldl_substSeg_map reps2 segs]
  congr 1
  apply List.map_congr_left
  intro s _
  cases s with
  | lit c => rw [foldl_substSeg_lit, foldl_substSeg_lit]
  | tok w =>
    rw [foldl_substSeg_tok, foldl_substSeg_tok]
    cases h1 : reps1.find? (fun kv => '[' :: (w ++ [']']) == kv.1) with
    | none =>
      cases h2 : reps2.find? (fun kv => '[' :: (w ++ [']']) == kv.1) with
      | none => rfl
      | some kv =>
        have hm : kv ∈ reps1 := h21 kv (List.mem_of_find?_eq_some h2)
        exact absurd (List.find?_some h2) (List.find?_eq_none.mp h1 kv hm)
    | some kv =>
      cases h2 : reps2.find? (fun kv => '[' :: (w ++ [']']) == kv.1) with
      | none =>
        have hm : kv ∈ reps2 := h12 kv (List.mem_of_find?_eq_some h1)
        exact absurd (List.find?_some h1) (List.find?_eq_none.mp h2 kv hm)
      | some kv' =>
        have hm1 : kv ∈ reps1 := List.mem_of_find?_eq_some h1
        have hm2 : kv' ∈ reps1 := h21 kv' (List.mem_of_find?_eq_some h2)
        have hp1 : ('[' :: (w ++ [']']) : Str) = kv.1 := by
          simpa using List.find?_some h1
        have hp2 : ('[' :: (w ++ [']']) : Str) = kv'.1 := by
          simpa using List.find?_some h2
        show Seg.lit kv.2 = Seg.lit kv'.2
        rw [hfun kv hm1 kv' hm2 (hp1.symm.trans hp2)]

set_option maxRecDepth 4000 in
/-- Witness for C2 (amended): a two-token vocabulary with bracket-free
values applied in both orders to a decomposed paragraph. -/
theorem replaceAll_order_insensitive_witness :
    replaceAll [(("[a]").data, ("x").data), (("[b]").data, ("y").data)]
        (renderSegs [Seg.lit (("Prix ").data), Seg.tok (("a").data),
          Seg.lit ((" puis ").data), Seg.tok (("b").data)])
      = replaceAll [(("[b]").data, ("y").data), (("[a]").data, ("x").data)]
        (renderSegs [Seg.lit (("Prix ").data), Seg.tok (("a").data),
          Seg.lit ((" puis ").data), Seg.tok (("b").data)]) :=
  replaceAll_order_insensitive _ _ _ (by decide) (by decide) (by decide) (by decide)
    (by decide)

set_option maxRecDepth 100000 in
/-- C2 (counterexample): with the GFA map built from a state whose
contact-name field holds the text "[date]" and whose date field holds
"X", the paragraph "[nom]" rewrites differently in the dictionary's
insertion order (the [nom] value is substituted first and the [date]
token it contains is then substituted too, giving "X") and in the
reverse order (giving "[date]"): applying the engine's replacements in
two different orders does not always yield the same text. -/
theorem replaceAll_order_dependent_counterexample :
    replaceAll
        (gfaReplacements ⟨[("nom_contact", "[date]"), ("date", "X")], false, false, false, []⟩)
        (("[nom]").data)
      ≠ replaceAll
        (gfaReplacements
          ⟨[("nom_contact", "[date]"), ("date", "X")], false, false, false, []⟩).reverse
        (("[nom]").data) := by
  decide

/-- A text containing no key of the map is left unchanged by the
replacement loop. -/
theorem replaceAll_no_token_id (reps : List (Str × Str)) :
    ∀ t, (∀ kv ∈ reps, pyContains kv.1 t = false) → replaceAll reps t = t := by
  induction reps with
  | nil => intro t _; rfl
  | cons kv rest ih =>
    intro t h
    simp only [replaceAll, List.foldl_cons] at ih ⊢
    rw [if_neg (by simp [h kv (by simp)])]
    exact ih t (fun p hp => h p (by simp [hp]))

/-- C6: substitution is idempotent on substituted documents: a paragraph
whose concatenated text contains no key of the replacement map is left
entirely unchanged by replace_in_paragraph — same text, same runs — so a
second engine run with the same map is a no-op. -/
theorem replace_in_paragraph_no_token_id (reps : List (Str × Str)) (runs : List Run)
    (h : ∀ kv ∈ reps, pyContains kv.1 (paraText runs) = false) :
    replace_in_paragraph reps runs = runs := by
  have hid : replaceAll reps (paraText runs) = paraText runs :=
    replaceAll_no_token_id reps (paraText runs) h
  unfold replace_in_paragraph
  simp [hid]

/-- Witness for C6: an already-substituted two-run paragraph with a
one-entry map whose token does not occur. -/
theorem replace_in_paragraph_no_token_id_witness :
    replace_in_paragraph [(("[nom]").data, ("DUPONT").data)]
        [⟨("Bonjour ").data, some "Arial", some 11, some true, none⟩,
         ⟨("Monsieur DUPONT").data, none, none, none, some true⟩]
      = [⟨("Bonjour ").data, some "Arial", some 11, some true, none⟩,
         ⟨("Monsieur DUPONT").data, none, none, none, some true⟩] :=
  replace_in_paragraph_no_token_id _ _ (by decide)

set_option maxRecDepth 100000 in
/-- C1 (counterexample): in the end-to-end GFA scenario with "1500000"
in the Prix de (€ HT) field, a paragraph holding the literal tokens
[montant_gfa] and [montant_gfa_lettres] is left completely unchanged:
those two tokens are not keys of the replacements dictionary (the keys
for this field are [nombre_gfa] and [nombre_gfa_lettres]), so nothing is
substituted. -/
theorem montant_gfa_tokens_not_replaced :
    replaceAll (gfaReplacements gfaScenarioState)
        (("[montant_gfa] [montant_gfa_lettres]").data)
      = ("[montant_gfa] [montant_gfa_lettres]").data := by
  decide

set_option maxRecDepth 100000 in
/-- C1 (amended): in the GFA scenario with "1500000" in the Prix de
(€ HT) field, generation replaces the tokens the dictionary does carry,
[nombre_gfa] and [nombre_gfa_lettres], with "1.500.000" and
"un million cinq cent mille". -/
theorem nombre_gfa_end_to_end :
    replaceAll (gfaReplacements gfaScenarioState)
        (("Montant : [nombre_gfa] € ([nombre_gfa_lettres] euros)").data)
      = ("Montant : 1.500.000 € (un million cinq cent mille euros)").data := by
  decide

/-- The loop of generate_cii_section renders exactly the kept entries,
in order. -/
theorem ciiSectionsList_eq_filter :
    ∀ entries : List CiiEntry, ciiSectionsList entries = (entries.filter ciiKeep).map ciiText := by
  intro entries
  induction entries with
  | nil => rfl
  | cons e rest ih =>
    by_cases hdrop : e.beneficiaires = "" ∨ e.montant = "" ∨ e.date_echeance = ""
    · have hk : ciiKeep e = false := by
        simp only [ciiKeep]
        rcases hdrop with h | h | h <;> simp [h]
      rw [ciiSectionsList, if_pos hdrop, List.filter_cons, if_neg (by simp [hk]), ih]
    · have hk : ciiKeep e = true := by
        push_neg at hdrop
        simp [ciiKeep, hdrop.1, hdrop.2.1, hdrop.2.2]
      rw [ciiSectionsList, if_neg hdrop, List.filter_cons, if_pos (by simp [hk]), List.map_cons,
        ih]

/-- C8: generate_cii_section drops every entry with an empty
beneficiaries, amount or due-date text, renders each remaining entry as
the lettered sub-paragraphs a (nature with beneficiaries and optional
transferor), b (amount) and c (due date), and concatenates the rendered
entries in input order into the one string that becomes the value of the
[section_complete_cii] placeholder. -/
theorem generate_cii_section_spec (entries : List CiiEntry) :
    generate_cii_section entries
      = String.intercalate "\n" ((entries.filter ciiKeep).map ciiText) := by
  cases entries with
  | nil => rfl
  | cons e rest =>
    unfold generate_cii_section
    rw [if_neg (by simp), ciiSectionsList_eq_filter]

/-- C10: every CII list reachable from initialization by add_cii and
remove_cii operations keeps at least one entry: the initial list has
one, add_cii appends exactly one, and remove_cii removes the last entry
only when more than one is present. -/
theorem cii_list_never_empty (l : List CiiEntry) (h : CiiReachable l) : 1 ≤ l.length := by
  induction h with
  | init => simp [ciiInitState, add_cii]
  | add _ _ => simp [add_cii]
  | remove _ ih =>
    unfold remove_cii
    split
    · rename_i hlen
      rw [List.length_dropLast]
      omega
    · exact ih

/-- Witness for C10 at the initial state. -/
theorem cii_list_never_empty_witness : 1 ≤ ciiInitState.length :=
  cii_list_never_empty ciiInitState CiiReachable.init
